import Mathlib

/-!
Formal model of the `flutter-test-output-parser` repository: the event-to-tree
reducer (`addEventToTrees`, the id-table variant), the query helpers
(`parentsOfTest`, `childrenOfSuite`, `childrenOfGroup`, `getSegmentedName`,
`totalDuration`, `duration`), and the top-level parse loop (`parseSync` /
`parseAsync`).

Modelling conventions:
* JavaScript strings are `List Char` (`JStr`).
* JavaScript numbers holding producer timestamps and ids are `Nat`; elapsed
  differences are `Int`; the non-integer results of JavaScript `/` are exact
  rationals `ℚ` with `Math.floor` as `Int.floor` (the values involved are far
  below the range where double rounding could change a floor).
* The mutable node table `{ [id: number]: Node }` is an association list with
  JavaScript property-assignment semantics (`tableSet` overwrites in place).
* Code paths that throw are `Except`/`Option` with `none`/`.error` for the
  thrown case; recursion over the table (which JavaScript runs unbounded, and
  which can only fail to terminate on cyclic tables) takes an explicit fuel
  argument, and exhausted fuel is the error `outOfFuel`.
-/

/-- A JavaScript string, modelled as its list of characters. -/
abbrev JStr := List Char

/-- Payload of a `suite` event (src/src/types.ts `ElementSuite.suite`). -/
structure SuiteInfo where
  id : Nat
  platform : JStr := []
  path : JStr := []
deriving DecidableEq, Repr

/-- Payload of a `group` event (src/src/types.ts `ElementGroup.group`). -/
structure GroupInfo where
  id : Nat
  suiteID : Nat
  parentID : Option Nat
  name : JStr
  testCount : Nat := 0
  line : Option Nat := none
  column : Option Nat := none
  url : Option JStr := none
deriving DecidableEq, Repr

/-- Payload of a `testStart` event (src/src/types.ts `ElementTestStart.test`). -/
structure TestInfo where
  id : Nat
  name : JStr := []
  suiteID : Nat
  groupIDs : List Nat
  line : Option Nat := none
  column : Option Nat := none
  url : Option JStr := none
  root_line : Option Nat := none
  root_column : Option Nat := none
  root_url : Option JStr := none
deriving DecidableEq, Repr

/-- A `start` event. The `time` field is optional (`EventCommon.time?`). -/
structure StartEvent where
  time : Option Nat := none
  protocolVersion : JStr := []
  runnerVersion : JStr := []
  pid : Nat := 0
deriving DecidableEq, Repr

/-- A `suite` event. -/
structure SuiteEvent where
  time : Option Nat := none
  suite : SuiteInfo
deriving DecidableEq, Repr

/-- A `group` event, carrying the deprecated top-level metadata flags. -/
structure GroupEvent where
  time : Option Nat := none
  skip : Bool := false
  skipReason : Option JStr := none
  group : GroupInfo
deriving DecidableEq, Repr

/-- A `testStart` event, carrying the deprecated top-level metadata flags. -/
structure TestStartEvent where
  time : Option Nat := none
  skip : Bool := false
  skipReason : Option JStr := none
  test : TestInfo
deriving DecidableEq, Repr

/-- The three values of `TestDoneEvent.result`. -/
inductive TestResult where
  | success
  | error
  | failure
deriving DecidableEq, Repr

/-- A `testDone` event. -/
structure TestDoneEvent where
  time : Option Nat := none
  testID : Nat
  result : TestResult := .success
  skipped : Bool := false
  hidden : Bool := false
deriving DecidableEq, Repr

/-- A `print` event (its `messageType` field is always the string `print`). -/
structure MessageEvent where
  time : Option Nat := none
  testID : Nat
  message : JStr := []
deriving DecidableEq, Repr

/-- An `error` event. -/
structure ErrorEvent where
  time : Option Nat := none
  testID : Nat
  error : JStr := []
  stackTrace : JStr := []
  isFailure : Bool := false
deriving DecidableEq, Repr

/-- A legacy `test` event (`ElementTest`), ignored by the reducer. -/
structure TestEvent where
  time : Option Nat := none
  error : Option JStr := none
  stackTrace : Option JStr := none
  isFailure : Option Bool := none
deriving DecidableEq, Repr

/-- An `allSuites` event. -/
structure AllSuitesEvent where
  time : Option Nat := none
  count : Nat := 0
deriving DecidableEq, Repr

/-- The terminal `done` event. -/
structure DoneEvent where
  time : Option Nat := none
  success : Bool := true
deriving DecidableEq, Repr

/-- One decoded line of the producer's JSON stream, tagged by its `type`
field (the `Event` union of the source's types). -/
inductive Event where
  | start (e : StartEvent)
  | suite (e : SuiteEvent)
  | group (e : GroupEvent)
  | testStart (e : TestStartEvent)
  | testDone (e : TestDoneEvent)
  | print (e : MessageEvent)
  | error (e : ErrorEvent)
  | test (e : TestEvent)
  | allSuites (e : AllSuitesEvent)
  | done (e : DoneEvent)
deriving DecidableEq, Repr

/-- Whether an event is the terminal `done` event. -/
def Event.isDone : Event → Bool
  | .done _ => true
  | _ => false

/-- A node of the reducer's table: the `SuiteNode | GroupNode | TestNode`
union used by the id-table reducer variant (src/unnamed/part_001) and the
query helpers (src/unnamed/part_002).  Suite and group nodes carry the list
of their child ids; a test node carries its optional completion record and
its lazily created print and error lists (`undefined` is `none`). -/
inductive Node where
  | suite (event : SuiteEvent) (children : List Nat)
  | group (event : GroupEvent) (children : List Nat)
  | test (event : TestStartEvent) (done : Option TestDoneEvent)
      (print : Option (List MessageEvent)) (error : Option (List ErrorEvent))
deriving DecidableEq, Repr

/-- Whether a node is a group node (the `node.type === "group"` check). -/
def Node.isGroup : Node → Bool
  | .group _ _ => true
  | _ => false

/-- The node's `time` field (each node spreads its originating event, so the
field comes from that event). -/
def nodeTime : Node → Option Nat
  | .suite e _ => e.time
  | .group e _ => e.time
  | .test e _ _ _ => e.time

/-- The node table `{ [id: number]: SuiteNode | GroupNode | TestNode }`. -/
abbrev Table := List (Nat × Node)

/-- Property read `trees[id]`: `none` is JavaScript `undefined`. -/
def tableGet : Table → Nat → Option Node
  | [], _ => none
  | (k, v) :: rest, id => if k = id then some v else tableGet rest id

/-- Property write `trees[id] = node`: overwrites in place, appends if new. -/
def tableSet : Table → Nat → Node → Table
  | [], id, node => [(id, node)]
  | (k, v) :: rest, id, node =>
      if k = id then (k, node) :: rest else (k, v) :: tableSet rest id node

/-- The statement `trees[event.group.id] = groupTree` for a fresh group. -/
def insertGroup (trees : Table) (e : GroupEvent) : Table :=
  tableSet trees e.group.id (.group e [])

/-- The statement `trees[event.test.id] = node` for a fresh test node (no
completion record, no print list, no error list). -/
def insertTest (trees : Table) (e : TestStartEvent) : Table :=
  tableSet trees e.test.id (.test e none none none)

/-- The reducer `addEventToTrees` (src/unnamed/part_001, lines 104-197): one
switch on the event tag, building the id-keyed table with child-id lists. -/
def addEventToTrees (trees : Table) : Event → Table
  | .start _ => trees
  | .suite e => tableSet trees e.suite.id (.suite e [])
  | .group e =>
      let t1 := insertGroup trees e
      match e.group.parentID with
      | some parentID =>
          match tableGet t1 parentID with
          | some (.suite se cs) => tableSet t1 parentID (.suite se (cs ++ [e.group.id]))
          | some (.group ge cs) => tableSet t1 parentID (.group ge (cs ++ [e.group.id]))
          | _ => t1
      | none =>
          match tableGet t1 e.group.suiteID with
          | some (.suite se cs) => tableSet t1 e.group.suiteID (.suite se (cs ++ [e.group.id]))
          | _ => t1
  | .testStart e =>
      let t1 := insertTest trees e
      match e.test.groupIDs.getLast? with
      | some lastGroupId =>
          match tableGet t1 lastGroupId with
          | some (.suite se cs) => tableSet t1 lastGroupId (.suite se (cs ++ [e.test.id]))
          | some (.group ge cs) => tableSet t1 lastGroupId (.group ge (cs ++ [e.test.id]))
          | _ => t1
      | none =>
          match tableGet t1 e.test.suiteID with
          | some (.suite se cs) => tableSet t1 e.test.suiteID (.suite se (cs ++ [e.test.id]))
          | _ => t1
  | .testDone e =>
      match tableGet trees e.testID with
      | some (.test te _ pr er) => tableSet trees e.testID (.test te (some e) pr er)
      | _ => trees
  | .print e =>
      match tableGet trees e.testID with
      | some (.test te dn pr er) =>
          tableSet trees e.testID (.test te dn (some (pr.getD [] ++ [e])) er)
      | _ => trees
  | .error e =>
      match tableGet trees e.testID with
      | some (.test te dn pr er) =>
          tableSet trees e.testID (.test te dn pr (some (er.getD [] ++ [e])))
      | _ => trees
  | .test _ => trees
  | .allSuites _ => trees
  | .done _ => trees

/-- Folding a whole event sequence through the reducer, starting from a table. -/
def foldEvents (trees : Table) (events : List Event) : Table :=
  events.foldl addEventToTrees trees

/-- The body of `parentsOfTest` (src/unnamed/part_002, lines 92-98):
`groupIDs.map((id) => table[id]).filter((node) => node.type === "group")`.
Mapping a missing id gives `undefined`; the filter callback then evaluates
`undefined.type`, which throws a `TypeError` — that thrown case is `none`.
Nodes of other kinds are dropped; group nodes are kept with their child
lists. -/
def filterGroups : List (Option Node) → Option (List (GroupEvent × List Nat))
  | [] => some []
  | none :: _ => none
  | some (.group e cs) :: rest => (filterGroups rest).map ((e, cs) :: ·)
  | some _ :: rest => filterGroups rest

/-- The query `parentsOfTest(table, test)`: the test's ancestor groups
resolved from its `groupIDs` list, in the stored order. -/
def parentsOfTest (table : Table) (node : TestStartEvent) :
    Option (List (GroupEvent × List Nat)) :=
  filterGroups (node.test.groupIDs.map (tableGet table))

/-- The body shared by `childrenOfSuite` and `childrenOfGroup`
(src/unnamed/part_002, lines 49-64):
`children.map((id) => table[id]).filter((node) => node.type !== "suite")`.
A missing id maps to `undefined` and the filter callback's `node.type`
access throws a `TypeError` (`none`); resolved suite nodes are dropped. -/
def filterNotSuite : List (Option Node) → Option (List Node)
  | [] => some []
  | none :: _ => none
  | some (.suite _ _) :: rest => filterNotSuite rest
  | some n :: rest => (filterNotSuite rest).map (n :: ·)

/-- The query `childrenOfSuite(table, suite)`, taking the suite node's child
id list. -/
def childrenOfSuite (table : Table) (children : List Nat) : Option (List Node) :=
  filterNotSuite (children.map (tableGet table))

/-- The query `childrenOfGroup(table, group)`, taking the group node's child
id list (the source duplicates the body of `childrenOfSuite`). -/
def childrenOfGroup (table : Table) (children : List Nat) : Option (List Node) :=
  filterNotSuite (children.map (tableGet table))

/-- The loop of `getSegmentedName` (src/unnamed/part_002, lines 131-143):
each group contributes one segment; a name beginning with the previous
group's name plus a space has that part peeled off.  The first iteration
sees the empty parent name. -/
def segmentLoop : JStr → List (GroupEvent × List Nat) → List JStr
  | _, [] => []
  | parentName, g :: rest =>
      let currentName := g.1.group.name
      let seg :=
        if currentName = [] then []
        else if (!parentName.isEmpty) && (parentName ++ [' ']).isPrefixOf currentName then
          currentName.drop (parentName.length + 1)
        else currentName
      seg :: segmentLoop currentName rest

/-- The query `getSegmentedName(table, node)` (src/unnamed/part_002, lines
126-160): the per-group segments followed by the test's own name, obtained
by slicing off the last group's name plus one space (with the extra
`endsWith` trim the source performs first).  Propagates the `TypeError` a
dangling ancestor id causes inside `parentsOfTest`. -/
def getSegmentedName (table : Table) (node : TestStartEvent) : Option (List JStr) :=
  match parentsOfTest table node with
  | none => none
  | some groups =>
      let segments := segmentLoop [] groups
      let testName0 := node.test.name
      let testName :=
        match groups.getLast? with
        | none => testName0
        | some lastGroup =>
            let lastName := lastGroup.1.group.name
            if lastName = [] then testName0
            else
              let lastGroupName := lastName ++ [' ']
              let t1 :=
                if lastGroupName.isSuffixOf testName0 then
                  testName0.take (testName0.length - lastGroupName.length)
                else testName0
              t1.drop lastGroupName.length
      some (segments ++ [testName])

/-- Modelled from the spec: the producer's space-separator convention for
composing a display name from name fragments — each nonempty accumulated
name is joined to the next fragment with a single space, and the anonymous
root group's empty name contributes nothing.  Used to state the
segmented-name round-trip claim. -/
def joinSegmentsSpec (segments : List JStr) : JStr :=
  segments.foldl (fun acc s => if acc = [] then s else acc ++ ' ' :: s) []

/-- The error kinds of the throwing query helpers: the explicit `throw`
messages of src/unnamed/part_002 plus the `TypeError` a property access on
`undefined` raises, plus fuel exhaustion (standing for the unbounded
recursion JavaScript would perform on a cyclic table). -/
inductive JsError where
  | typeError
  | timeUndefined
  | testNotDone
  | durationNull
  | outOfFuel
deriving DecidableEq, Repr

/-- JavaScript truncation toward zero of a rational. -/
def jsTrunc (q : ℚ) : Int :=
  if 0 ≤ q then ⌊q⌋ else -⌊-q⌋

/-- The JavaScript remainder `a % b` on (possibly fractional) numbers:
`a - b * trunc(a / b)`. -/
def jsFmod (a b : ℚ) : ℚ :=
  a - b * (jsTrunc (a / b) : ℚ)

/-- The JavaScript remainder on integers (sign follows the dividend). -/
def jsRem (a b : Int) : Int :=
  if 0 ≤ a then a % b else -((-a) % b)

/-- A minutes/seconds/milliseconds decomposition record. -/
structure Duration where
  minutes : Int
  seconds : Int
  milliseconds : Int
deriving DecidableEq, Repr

/-- The query `totalDuration(doneEvent)` (src/unnamed/part_002, lines
162-176): decomposes the terminal event's elapsed milliseconds; throws when
the time value is null or undefined. -/
def totalDuration (doneEvent : DoneEvent) : Except JsError Duration :=
  match doneEvent.time with
  | none => .error .durationNull
  | some t =>
      let durationInSeconds : ℚ := (t : ℚ) / 1000
      .ok { minutes := ⌊durationInSeconds / 60⌋
            seconds := ⌊jsFmod durationInSeconds 60⌋
            milliseconds := jsRem (t : Int) 1000 }

/-- The recursive helper `findStartTimestamp` (src/unnamed/part_002, lines
181-207): earliest `time` over a node and its resolved children.  The fuel
argument bounds the recursion depth JavaScript leaves unbounded. -/
def findStartTimestamp (table : Table) : Nat → Node → Except JsError Nat
  | 0, _ => .error .outOfFuel
  | fuel + 1, node =>
      match nodeTime node with
      | none => .error .timeUndefined
      | some t =>
          match node with
          | .test _ _ _ _ => .ok t
          | .suite _ cs =>
              match childrenOfSuite table cs with
              | none => .error .typeError
              | some children =>
                  children.foldl (fun acc child =>
                    match acc with
                    | .error err => .error err
                    | .ok best =>
                        match findStartTimestamp table fuel child with
                        | .error err => .error err
                        | .ok childStart => .ok (min best childStart)) (.ok t)
          | .group _ cs =>
              match childrenOfGroup table cs with
              | none => .error .typeError
              | some children =>
                  children.foldl (fun acc child =>
                    match acc with
                    | .error err => .error err
                    | .ok best =>
                        match findStartTimestamp table fuel child with
                        | .error err => .error err
                        | .ok childStart => .ok (min best childStart)) (.ok t)

/-- The recursive helper `findEndTimestamp` (src/unnamed/part_002, lines
212-241): latest end timestamp over a node and its resolved children; a
test node must carry a completion record with a time. -/
def findEndTimestamp (table : Table) : Nat → Node → Except JsError Nat
  | 0, _ => .error .outOfFuel
  | fuel + 1, node =>
      match nodeTime node with
      | none => .error .timeUndefined
      | some t =>
          match node with
          | .test _ dn _ _ =>
              match dn with
              | none => .error .testNotDone
              | some d =>
                  match d.time with
                  | none => .error .testNotDone
                  | some et => .ok et
          | .suite _ cs =>
              match childrenOfSuite table cs with
              | none => .error .typeError
              | some children =>
                  children.foldl (fun acc child =>
                    match acc with
                    | .error err => .error err
                    | .ok best =>
                        match findEndTimestamp table fuel child with
                        | .error err => .error err
                        | .ok childEnd => .ok (max best childEnd)) (.ok t)
          | .group _ cs =>
              match childrenOfGroup table cs with
              | none => .error .typeError
              | some children =>
                  children.foldl (fun acc child =>
                    match acc with
                    | .error err => .error err
                    | .ok best =>
                        match findEndTimestamp table fuel child with
                        | .error err => .error err
                        | .ok childEnd => .ok (max best childEnd)) (.ok t)

/-- The query `duration(table, node)` (src/unnamed/part_002, lines 243-260):
the elapsed time between the subtree's start and end timestamps, decomposed
into minutes/seconds/milliseconds. -/
def duration (table : Table) (fuel : Nat) (node : Node) : Except JsError Duration :=
  match findStartTimestamp table fuel node with
  | .error err => .error err
  | .ok startTime =>
      match findEndTimestamp table fuel node with
      | .error err => .error err
      | .ok endTime =>
          let durationInMillis : Int := (endTime : Int) - (startTime : Int)
          let durationInSeconds : ℚ := (durationInMillis : ℚ) / 1000
          .ok { minutes := ⌊durationInSeconds / 60⌋
                seconds := ⌊jsFmod durationInSeconds 60⌋
                milliseconds := jsRem durationInMillis 1000 }

/-- The parse result record (src/src/types.ts `FlutterTestOutput`). -/
structure FlutterTestOutput where
  trees : Table
  totalDurationInSeconds : ℚ
deriving DecidableEq, Repr

/-- JavaScript `String.prototype.split` on the single character `\n`. -/
def splitOnNewline : JStr → List JStr
  | [] => [[]]
  | c :: rest =>
      if c = '\n' then [] :: splitOnNewline rest
      else
        match splitOnNewline rest with
        | [] => [[c]]
        | l :: ls => (c :: l) :: ls

/-- The shared loop of `parseSync`/`parseAsync` (src/src/parser.ts lines
42-48 and 84-94, src/unnamed/part_000 lines 43-50): decode each line, fold
the event into the table, and on a `done` event set the total duration to
`(event.time ?? 0) / 1000`.  The decoder argument stands for `JSON.parse`
on one line: `none` is a thrown decode error, which aborts the whole parse. -/
def parseLoop (dec : JStr → Option Event) :
    List JStr → Table → ℚ → Option FlutterTestOutput
  | [], trees, dur => some ⟨trees, dur⟩
  | line :: rest, trees, dur =>
      match dec line with
      | none => none
      | some event =>
          let trees1 := addEventToTrees trees event
          let dur1 : ℚ :=
            match event with
            | .done e => ((e.time.getD 0 : Nat) : ℚ) / 1000
            | _ => dur
          parseLoop dec rest trees1 dur1

/-- `parseSync` on a full string input: split on newlines, then run the
parse loop with the table empty and `totalDurationInSeconds = -1`. -/
def parseSync (dec : JStr → Option Event) (output : JStr) : Option FlutterTestOutput :=
  parseLoop dec (splitOnNewline output) [] (-1)

/-- `parseSync` on an input already presented as a sequence of lines (the
`string[] | Generator<string>` branches of the source). -/
def parseSyncOfLines (dec : JStr → Option Event) (lines : List JStr) :
    Option FlutterTestOutput :=
  parseLoop dec lines [] (-1)

/-- `parseAsync`: the source duplicates the same loop verbatim and differs
only in how lines are produced (file or byte stream, decoded as UTF-8 and
split on line boundaries); the embedding receives that line sequence. -/
def parseAsync (dec : JStr → Option Event) (lines : List JStr) :
    Option FlutterTestOutput :=
  parseLoop dec lines [] (-1)

instance {ε α : Type} [DecidableEq ε] [DecidableEq α] : DecidableEq (Except ε α)
  | .ok a, .ok b =>
      if h : a = b then .isTrue (by rw [h]) else .isFalse (by simp [h])
  | .ok _, .error _ => .isFalse (by simp)
  | .error _, .ok _ => .isFalse (by simp)
  | .error a, .error b =>
      if h : a = b then .isTrue (by rw [h]) else .isFalse (by simp [h])

/-- The suite event of the spec's concrete nested-group scenario. -/
def suiteEvent0 : SuiteEvent := {suite := {id := 0}}

/-- The anonymous root group (id 2, empty name, null parent) of the
scenario. -/
def groupEventRoot : GroupEvent :=
  {group := {id := 2, suiteID := 0, parentID := none, name := []}}

/-- The named child group (id 3) of the scenario. -/
def groupEventIFT : GroupEvent :=
  { group :=
      { id := 3
        suiteID := 0
        parentID := some 2
        name := "Intentionally failing tests".toList } }

/-- The test (id 4) of the scenario, inside groups [2, 3]. -/
def testEventSAF : TestStartEvent :=
  { test :=
      { id := 4
        suiteID := 0
        groupIDs := [2, 3]
        name := "Intentionally failing tests Simple assertion failure".toList } }

/-- The scenario's event stream, in producer order. -/
def scenarioEvents : List Event :=
  [.suite suiteEvent0, .group groupEventRoot, .group groupEventIFT,
   .testStart testEventSAF]

/-- The completed table of the scenario. -/
def scenarioTable : Table := foldEvents [] scenarioEvents

/-- A two-group chain whose names do not extend each other, used to observe
the ancestor query's ordering. -/
def c2GroupA : GroupEvent :=
  {group := {id := 1, suiteID := 0, parentID := none, name := ['A']}}

/-- The nested second group of the ordering observation. -/
def c2GroupB : GroupEvent :=
  {group := {id := 2, suiteID := 0, parentID := some 1, name := ['B']}}

/-- A test inside groups [1, 2] (outermost first, as the producer delivers). -/
def c2TestEvent : TestStartEvent :=
  {test := {id := 5, suiteID := 0, groupIDs := [1, 2]}}

/-- The completed table containing the two-group chain and the test. -/
def c2Table : Table :=
  foldEvents [] [.suite suiteEvent0, .group c2GroupA, .group c2GroupB,
    .testStart c2TestEvent]

/-- A group whose name is not a prefix of its test's display name, for the
segmented-name round-trip observation. -/
def c3cGroup : GroupEvent :=
  {group := {id := 2, suiteID := 0, parentID := none, name := ['A']}}

/-- A test named `X Y` inside the group named `A`. -/
def c3cTest : TestStartEvent :=
  {test := {id := 3, suiteID := 0, groupIDs := [2], name := ['X', ' ', 'Y']}}

/-- The completed table for the round-trip observation. -/
def c3cTable : Table :=
  foldEvents [] [.suite suiteEvent0, .group c3cGroup, .testStart c3cTest]

/-- An event stream in which a group's id is later reused by a suite event,
leaving the first suite's child list pointing at a suite-typed node. -/
def c6Events : List Event :=
  [.suite {suite := {id := 0}},
   .group {group := {id := 5, suiteID := 0, parentID := none, name := ['x']}},
   .suite {suite := {id := 5, path := ['p']}}]

/-- The completed table of that reuse stream. -/
def c6Table : Table := foldEvents [] c6Events

/-- A sample line decoder: rejects the empty line (as `JSON.parse` does)
and decodes any other line to an `allSuites` event. -/
def lineDecSample : JStr → Option Event := fun line =>
  if line = [] then none else some (.allSuites {count := 1})

/-- Floor of an exact rational division of naturals is natural division. -/
theorem floorQ_natCast_div (n k : ℕ) :
    ⌊(n : ℚ) / (k : ℚ)⌋ = ((n / k : ℕ) : ℤ) := by
  rw [Rat.floor_natCast_div_natCast]
  exact (Int.natCast_div n k).symm

/-- The chained division by 1000 then 60 floors to division by 60000. -/
theorem floorQ_div_1000_60 (n : ℕ) :
    ⌊(n : ℚ) / 1000 / 60⌋ = ((n / 1000 / 60 : ℕ) : ℤ) := by
  have h1 : (n : ℚ) / 1000 / 60 = (n : ℚ) / ((60000 : ℕ) : ℚ) := by
    rw [div_div]; norm_num
  rw [h1, floorQ_natCast_div, Nat.div_div_eq_div_mul]

/-- Floor of the division by 1000 alone. -/
theorem floorQ_div_1000 (n : ℕ) :
    ⌊(n : ℚ) / 1000⌋ = ((n / 1000 : ℕ) : ℤ) := by
  have h1 : (n : ℚ) / 1000 = (n : ℚ) / ((1000 : ℕ) : ℚ) := by norm_num
  rw [h1, floorQ_natCast_div]

/-- On nonnegative arguments JavaScript truncation is the floor. -/
theorem jsTrunc_of_nonneg {q : ℚ} (h : 0 ≤ q) : jsTrunc q = ⌊q⌋ :=
  if_pos h

/-- The `Math.floor(durationInSeconds % 60)` computation on a natural number
of milliseconds is the natural-number `(n / 1000) % 60`. -/
theorem floorQ_fmod_60 (n : ℕ) :
    ⌊jsFmod ((n : ℚ) / 1000) 60⌋ = ((n / 1000 % 60 : ℕ) : ℤ) := by
  unfold jsFmod
  rw [jsTrunc_of_nonneg (by positivity), floorQ_div_1000_60]
  generalize hk : n / 1000 / 60 = k
  have h2 : (60 : ℚ) * ((k : ℤ) : ℚ) = ((60 * k : ℕ) : ℚ) := by push_cast; ring
  rw [h2, Int.floor_sub_nat, floorQ_div_1000]
  have h3 := Nat.div_add_mod (n / 1000) 60
  omega

/-- The JavaScript integer remainder `% 1000` of a cast natural is the
natural mod. -/
theorem jsRem_natCast_1000 (n : ℕ) : jsRem (n : Int) 1000 = ((n % 1000 : ℕ) : ℤ) := by
  unfold jsRem
  rw [if_pos (by positivity)]
  omega

/-- Reading back the key just written returns the written node. -/
theorem tableGet_tableSet_self (t : Table) (id : Nat) (n : Node) :
    tableGet (tableSet t id n) id = some n := by
  induction t with
  | nil => simp [tableSet, tableGet]
  | cons kv rest ih =>
      obtain ⟨k, v⟩ := kv
      by_cases h : k = id
      · simp [tableSet, tableGet, h]
      · simp [tableSet, tableGet, h, ih]

/-- Writing one key leaves every other key unchanged. -/
theorem tableGet_tableSet_ne (t : Table) (id k : Nat) (n : Node) (h : k ≠ id) :
    tableGet (tableSet t id n) k = tableGet t k := by
  induction t with
  | nil =>
      simp only [tableSet, tableGet]
      rw [if_neg (fun hh => h hh.symm)]
  | cons kv rest ih =>
      obtain ⟨k', v⟩ := kv
      by_cases h1 : k' = id
      · subst h1
        simp only [tableSet, if_pos rfl, tableGet]
        rw [if_neg (fun hh => h hh.symm), if_neg (fun hh => h hh.symm)]
      · by_cases h2 : k' = k <;> simp [tableSet, tableGet, h1, h2, h, ih]

/-- C1: folding a `group` event first inserts the fresh group node and then
attaches its id: with a non-null `parentID` (the id 0 included) pointing at
a group or suite node present in the table, the id is appended to that
node's child list; with a null `parentID` it is appended to the owning
suite's child list when that suite is present; when the referenced parent
is absent nothing else changes and no error is raised. -/
theorem c1_group_attachment (trees : Table) (e : GroupEvent) :
    (∀ p ge cs, e.group.parentID = some p →
        tableGet (insertGroup trees e) p = some (.group ge cs) →
        addEventToTrees trees (.group e) =
          tableSet (insertGroup trees e) p (.group ge (cs ++ [e.group.id]))) ∧
    (∀ p se cs, e.group.parentID = some p →
        tableGet (insertGroup trees e) p = some (.suite se cs) →
        addEventToTrees trees (.group e) =
          tableSet (insertGroup trees e) p (.suite se (cs ++ [e.group.id]))) ∧
    (∀ se cs, e.group.parentID = none →
        tableGet (insertGroup trees e) e.group.suiteID = some (.suite se cs) →
        addEventToTrees trees (.group e) =
          tableSet (insertGroup trees e) e.group.suiteID (.suite se (cs ++ [e.group.id]))) ∧
    (∀ p, e.group.parentID = some p →
        tableGet (insertGroup trees e) p = none →
        addEventToTrees trees (.group e) = insertGroup trees e) := by
  refine ⟨?_, ?_, ?_, ?_⟩ <;> intros <;> simp_all [addEventToTrees]

/-- C1 witness: a parent group with id 0 (non-null but falsy in JavaScript)
still receives the new group's id in its child list. -/
theorem c1_group_attachment_witness :
    addEventToTrees [(0, .group {group := {id := 0, suiteID := 9, parentID := none, name := []}} [])]
        (.group {group := {id := 5, suiteID := 9, parentID := some 0, name := ['g']}}) =
      tableSet
        (insertGroup [(0, .group {group := {id := 0, suiteID := 9, parentID := none, name := []}} [])]
          {group := {id := 5, suiteID := 9, parentID := some 0, name := ['g']}})
        0 (.group {group := {id := 0, suiteID := 9, parentID := none, name := []}} [5]) :=
  (c1_group_attachment _ _).1 0 _ [] rfl (by decide)

/-- C5: a `testDone`, `print` or `error` event whose `testID` resolves to a
test node rewrites exactly that entry (attaching the completion record,
appending to the lazily created print list, appending to the lazily created
error list), and such an event whose `testID` does not resolve to a test
node leaves the table entirely unchanged. -/
theorem c5_enrichment (trees : Table) (de : TestDoneEvent) (pe : MessageEvent)
    (ee : ErrorEvent) :
    (∀ te dn pr er, tableGet trees de.testID = some (.test te dn pr er) →
        addEventToTrees trees (.testDone de) =
          tableSet trees de.testID (.test te (some de) pr er)) ∧
    ((∀ te dn pr er, tableGet trees de.testID ≠ some (.test te dn pr er)) →
        addEventToTrees trees (.testDone de) = trees) ∧
    (∀ te dn pr er, tableGet trees pe.testID = some (.test te dn pr er) →
        addEventToTrees trees (.print pe) =
          tableSet trees pe.testID (.test te dn (some (pr.getD [] ++ [pe])) er)) ∧
    ((∀ te dn pr er, tableGet trees pe.testID ≠ some (.test te dn pr er)) →
        addEventToTrees trees (.print pe) = trees) ∧
    (∀ te dn pr er, tableGet trees ee.testID = some (.test te dn pr er) →
        addEventToTrees trees (.error ee) =
          tableSet trees ee.testID (.test te dn pr (some (er.getD [] ++ [ee])))) ∧
    ((∀ te dn pr er, tableGet trees ee.testID ≠ some (.test te dn pr er)) →
        addEventToTrees trees (.error ee) = trees) := by
  refine ⟨?_, ?_, ?_, ?_, ?_, ?_⟩
  · intro te dn pr er h
    simp [addEventToTrees, h]
  · intro hne
    rcases hg : tableGet trees de.testID with _ | node
    · simp [addEventToTrees, hg]
    · cases node with
      | suite se cs => simp [addEventToTrees, hg]
      | group ge cs => simp [addEventToTrees, hg]
      | test te dn pr er => exact absurd hg (hne te dn pr er)
  · intro te dn pr er h
    simp [addEventToTrees, h]
  · intro hne
    rcases hg : tableGet trees pe.testID with _ | node
    · simp [addEventToTrees, hg]
    · cases node with
      | suite se cs => simp [addEventToTrees, hg]
      | group ge cs => simp [addEventToTrees, hg]
      | test te dn pr er => exact absurd hg (hne te dn pr er)
  · intro te dn pr er h
    simp [addEventToTrees, h]
  · intro hne
    rcases hg : tableGet trees ee.testID with _ | node
    · simp [addEventToTrees, hg]
    · cases node with
      | suite se cs => simp [addEventToTrees, hg]
      | group ge cs => simp [addEventToTrees, hg]
      | test te dn pr er => exact absurd hg (hne te dn pr er)

/-- C5 witness: a `testDone` event whose `testID` matches an inserted test
node attaches the completion record to exactly that node. -/
theorem c5_enrichment_witness :
    addEventToTrees [(7, .test {test := {id := 7, suiteID := 0, groupIDs := []}} none none none)]
        (.testDone {testID := 7, result := .failure}) =
      tableSet [(7, .test {test := {id := 7, suiteID := 0, groupIDs := []}} none none none)] 7
        (.test {test := {id := 7, suiteID := 0, groupIDs := []}}
          (some {testID := 7, result := .failure}) none none) :=
  (c5_enrichment _ {testID := 7, result := .failure} {testID := 7} {testID := 7}).1
    _ none none none (by decide)

/-- C4 counterexample: events `suite(id=0)` then `testStart(id=1,
suiteID=0, groupIDs=[99])`.  The nearest enclosing group id 99 has no entry
in the table and the owning suite 0 exists, yet the reducer records no
child link at all: the suite's child list stays empty instead of receiving
the test id 1, refuting the claimed fallback to the owning suite. -/
theorem c4_counterexample :
    tableGet (foldEvents [] [.suite {suite := {id := 0}},
        .testStart {test := {id := 1, suiteID := 0, groupIDs := [99]}}]) 99 = none ∧
    tableGet (foldEvents [] [.suite {suite := {id := 0}},
        .testStart {test := {id := 1, suiteID := 0, groupIDs := [99]}}]) 0 =
      some (.suite {suite := {id := 0}} []) := by
  exact ⟨rfl, rfl⟩

/-- C4 (amended): folding a `testStart` event always inserts a fresh test
node (no completion record, print list or error list) under the test's id;
the test's id is appended to the child list of the node found at the last
element of `groupIDs` when that id resolves to a group node; when
`groupIDs` is nonempty but its last id has no entry, no child link is
recorded (there is no fallback to the suite); only when `groupIDs` is empty
is the id appended to the owning suite's child list, if the suite exists. -/
theorem c4_teststart_attachment (trees : Table) (e : TestStartEvent) :
    (tableGet (addEventToTrees trees (.testStart e)) e.test.id =
        some (.test e none none none)) ∧
    (∀ g ge cs, e.test.groupIDs.getLast? = some g →
        tableGet (insertTest trees e) g = some (.group ge cs) →
        addEventToTrees trees (.testStart e) =
          tableSet (insertTest trees e) g (.group ge (cs ++ [e.test.id]))) ∧
    (∀ g, e.test.groupIDs.getLast? = some g →
        tableGet (insertTest trees e) g = none →
        addEventToTrees trees (.testStart e) = insertTest trees e) ∧
    (∀ se cs, e.test.groupIDs = [] →
        tableGet (insertTest trees e) e.test.suiteID = some (.suite se cs) →
        addEventToTrees trees (.testStart e) =
          tableSet (insertTest trees e) e.test.suiteID (.suite se (cs ++ [e.test.id]))) := by
  refine ⟨?_, ?_, ?_, ?_⟩
  · have hself : tableGet (insertTest trees e) e.test.id = some (.test e none none none) :=
      tableGet_tableSet_self trees e.test.id _
    simp only [addEventToTrees]
    rcases hl : e.test.groupIDs.getLast? with _ | g <;> simp only [hl]
    · rcases hg : tableGet (insertTest trees e) e.test.suiteID with _ | node
      · simpa [hg] using hself
      · cases node with
        | suite se cs =>
            by_cases hk : e.test.suiteID = e.test.id
            · exfalso
              rw [hk] at hg
              have h2 := hself.symm.trans hg
              simp at h2
            · simp only [hg]
              rw [tableGet_tableSet_ne _ _ _ _ (fun hh => hk hh.symm)]
              exact hself
        | group ge cs => simpa [hg] using hself
        | test te dn pr er => simpa [hg] using hself
    · rcases hg : tableGet (insertTest trees e) g with _ | node
      · simpa [hg] using hself
      · cases node with
        | suite se cs =>
            by_cases hk : g = e.test.id
            · exfalso
              rw [hk] at hg
              have h2 := hself.symm.trans hg
              simp at h2
            · simp only [hg]
              rw [tableGet_tableSet_ne _ _ _ _ (fun hh => hk hh.symm)]
              exact hself
        | group ge cs =>
            by_cases hk : g = e.test.id
            · exfalso
              rw [hk] at hg
              have h2 := hself.symm.trans hg
              simp at h2
            · simp only [hg]
              rw [tableGet_tableSet_ne _ _ _ _ (fun hh => hk hh.symm)]
              exact hself
        | test te dn pr er => simpa [hg] using hself
  · intro g ge cs hl hg
    simp_all [addEventToTrees]
  · intro g hl hg
    simp_all [addEventToTrees]
  · intro se cs hl hg
    simp_all [addEventToTrees]

/-- C4 witness: a test whose last `groupIDs` entry resolves to a group node
is appended to that group's child list. -/
theorem c4_teststart_attachment_witness :
    addEventToTrees [(3, .group {group := {id := 3, suiteID := 0, parentID := none, name := ['g']}} [])]
        (.testStart {test := {id := 10, suiteID := 0, groupIDs := [3]}}) =
      tableSet
        (insertTest [(3, .group {group := {id := 3, suiteID := 0, parentID := none, name := ['g']}} [])]
          {test := {id := 10, suiteID := 0, groupIDs := [3]}})
        3 (.group {group := {id := 3, suiteID := 0, parentID := none, name := ['g']}} [10]) :=
  (c4_teststart_attachment _ _).2.1 3 _ [] rfl (by decide)

/-- C8: for every terminal `done` event carrying an elapsed time of `t`
milliseconds, `totalDuration` returns minutes = floor((t/1000)/60),
seconds = floor((t/1000) mod 60) and milliseconds = t mod 1000 (stated via
the equal natural-number divisions), and it fails exactly when the event's
time value is absent. -/
theorem c8_total_duration (e : DoneEvent) :
    (e.time = none → totalDuration e = .error .durationNull) ∧
    (∀ t : ℕ, e.time = some t →
      totalDuration e =
        .ok ⟨((t / 1000 / 60 : ℕ) : ℤ), ((t / 1000 % 60 : ℕ) : ℤ),
             ((t % 1000 : ℕ) : ℤ)⟩) := by
  constructor
  · intro h
    simp [totalDuration, h]
  · intro t h
    simp only [totalDuration, h]
    rw [floorQ_div_1000_60, floorQ_fmod_60, jsRem_natCast_1000]

/-- C8 witness: the spec's concrete scenario, a terminal `done` event with
elapsed time 105579 ms decomposes to 1 minute, 45 seconds, 579 ms. -/
theorem c8_total_duration_witness :
    totalDuration {time := some 105579} = .ok ⟨1, 45, 579⟩ := by
  rw [(c8_total_duration {time := some 105579}).2 105579 rfl]
  decide

/-- C7: for every test node, the `duration` query fails with a timing error
exactly when the start timestamp or the completion record's timestamp is
missing, and when both are present (with start before end) it returns the
elapsed milliseconds decomposed into minutes, seconds and milliseconds. -/
theorem c7_test_duration (table : Table) (fuel : Nat) (e : TestStartEvent)
    (dn : Option TestDoneEvent) (pr : Option (List MessageEvent))
    (er : Option (List ErrorEvent)) :
    ((∃ err, duration table (fuel + 1) (.test e dn pr er) = .error err) ↔
      (e.time = none ∨ dn = none ∨ (∃ d, dn = some d ∧ d.time = none))) ∧
    (∀ s d et, e.time = some s → dn = some d → d.time = some et → s ≤ et →
      duration table (fuel + 1) (.test e dn pr er) =
        .ok ⟨(((et - s) / 1000 / 60 : ℕ) : ℤ), (((et - s) / 1000 % 60 : ℕ) : ℤ),
             (((et - s) % 1000 : ℕ) : ℤ)⟩) := by
  constructor
  · rcases hs : e.time with _ | s
    · simp [duration, findStartTimestamp, nodeTime, hs]
    · rcases hd : dn with _ | d
      · simp [duration, findStartTimestamp, findEndTimestamp, nodeTime, hs, hd]
      · rcases het : d.time with _ | et
        · simp [duration, findStartTimestamp, findEndTimestamp, nodeTime, hs, hd, het]
        · simp [duration, findStartTimestamp, findEndTimestamp, nodeTime, hs, hd, het]
  · intro s d et hs hd het hle
    have hms : ((et : ℤ) - (s : ℤ)) = ((et - s : ℕ) : ℤ) := by omega
    simp only [duration, findStartTimestamp, findEndTimestamp, nodeTime, hs, hd, het]
    rw [hms]
    simp only [Int.cast_natCast]
    rw [floorQ_div_1000_60, floorQ_fmod_60, jsRem_natCast_1000]

/-- C7 witness: the spec's concrete scenario, a test with `time = 3072` and
`done.time = 3124` has duration 0 minutes, 0 seconds, 52 ms. -/
theorem c7_test_duration_witness :
    duration [] 1
      (.test {time := some 3072, test := {id := 4, suiteID := 0, groupIDs := []}}
        (some {time := some 3124, testID := 4}) none none) = .ok ⟨0, 0, 52⟩ := by
  rw [(c7_test_duration [] 0 {time := some 3072, test := {id := 4, suiteID := 0, groupIDs := []}}
      (some {time := some 3124, testID := 4}) none none).2 3072
      {time := some 3124, testID := 4} 3124 rfl rfl rfl (by omega)]
  decide

/-- When every id resolves, the map-then-filter of `parentsOfTest` never
hits `undefined` and keeps exactly the group-resolving ids, in order. -/
theorem filterGroups_of_resolving (table : Table) (ids : List Nat)
    (h : ∀ i ∈ ids, (tableGet table i).isSome) :
    filterGroups (ids.map (tableGet table)) =
      some (ids.filterMap (fun i =>
        match tableGet table i with
        | some (.group ge cs) => some (ge, cs)
        | _ => none)) := by
  induction ids with
  | nil => rfl
  | cons i rest ih =>
      have hi := h i (by simp)
      have hrest := ih (fun j hj => h j (by simp [hj]))
      rcases hg : tableGet table i with _ | node
      · rw [hg] at hi
        simp at hi
      · cases node with
        | group ge cs => simp [filterGroups, hg, hrest]
        | suite se cs => simp [filterGroups, hg, hrest]
        | test te dn pr er => simp [filterGroups, hg, hrest]

/-- C2 counterexample: in the completed table with groups 1 (`A`) and 2
(`B`, nested in 1) and a test with `groupIDs = [1, 2]`, `parentsOfTest` is
not the reversal of the stored-order resolution — the code returns the
groups in the stored order and performs no reversal. -/
theorem c2_counterexample :
    parentsOfTest c2Table c2TestEvent ≠
      (filterGroups (c2TestEvent.test.groupIDs.map (tableGet c2Table))).map
        List.reverse := by
  decide

/-- C2 (amended): for every test node whose ancestor ids all resolve,
`parentsOfTest` returns the group nodes resolved from the `groupIDs` list
in the stored order (which the producer delivers outermost first), with ids
resolving to non-group nodes filtered out; in particular in the scenario
table the test with `groupIDs = [2, 3]` yields the groups 2 and 3 in that
order. -/
theorem c2_ancestors_of_test :
    (∀ (table : Table) (node : TestStartEvent),
      (∀ i ∈ node.test.groupIDs, (tableGet table i).isSome) →
        parentsOfTest table node =
          some (node.test.groupIDs.filterMap (fun i =>
            match tableGet table i with
            | some (.group ge cs) => some (ge, cs)
            | _ => none))) ∧
    (parentsOfTest scenarioTable testEventSAF).map
        (List.map (fun g => g.1.group.id)) = some [2, 3] := by
  constructor
  · intro table node h
    exact filterGroups_of_resolving table node.test.groupIDs h
  · decide

/-- C2 witness: the general stored-order statement applied to the scenario
table, where every ancestor id of the test resolves. -/
theorem c2_ancestors_of_test_witness :
    parentsOfTest scenarioTable testEventSAF =
      some (testEventSAF.test.groupIDs.filterMap (fun i =>
        match tableGet scenarioTable i with
        | some (.group ge cs) => some (ge, cs)
        | _ => none)) :=
  c2_ancestors_of_test.1 scenarioTable testEventSAF (by decide)

/-- When every id resolves, the children query drops exactly the
suite-typed children and keeps the rest, in order. -/
theorem filterNotSuite_of_resolving (table : Table) (ids : List Nat)
    (h : ∀ i ∈ ids, (tableGet table i).isSome) :
    filterNotSuite (ids.map (tableGet table)) =
      some (ids.filterMap (fun i =>
        match tableGet table i with
        | some (.suite _ _) => none
        | some n => some n
        | none => none)) := by
  induction ids with
  | nil => rfl
  | cons i rest ih =>
      have hi := h i (by simp)
      have hrest := ih (fun j hj => h j (by simp [hj]))
      rcases hg : tableGet table i with _ | node
      · rw [hg] at hi
        simp at hi
      · cases node with
        | suite se cs => simp [filterNotSuite, hg, hrest]
        | group ge cs => simp [filterNotSuite, hg, hrest]
        | test te dn pr er => simp [filterNotSuite, hg, hrest]

/-- A dangling id anywhere in the mapped list makes the filter throw. -/
theorem filterNotSuite_of_dangling (l : List (Option Node)) (h : none ∈ l) :
    filterNotSuite l = none := by
  induction l with
  | nil => cases h
  | cons o rest ih =>
      cases o with
      | none => rfl
      | some n =>
          have h2 : none ∈ rest := by
            rcases List.mem_cons.mp h with h1 | h1
            · cases h1
            · exact h1
          cases n with
          | suite se cs => simpa [filterNotSuite] using ih h2
          | group ge cs => simp [filterNotSuite, ih h2]
          | test te dn pr er => simp [filterNotSuite, ih h2]

/-- C6 counterexample: in the completed table where group 5 was attached to
suite 0 and then a suite event reused id 5, the child id 5 still resolves
to a node, yet `childrenOfSuite` returns the empty list instead of that
resolved child — the query also drops resolved suite-typed children, which
the claim does not allow. -/
theorem c6_counterexample :
    tableGet c6Table 0 = some (.suite {suite := {id := 0}} [5]) ∧
    (tableGet c6Table 5).isSome = true ∧
    childrenOfSuite c6Table [5] = some [] := by
  decide

/-- C6 (amended): when every child id has an entry, the children queries
return the resolved children in order with the suite-typed ones excluded;
when some child id has no entry, both queries fail with a `TypeError`
instead of skipping it (in tables the reducer itself produced, a child id
without an entry never occurs). -/
theorem c6_children_query (table : Table) (children : List Nat) :
    ((∀ i ∈ children, (tableGet table i).isSome) →
        childrenOfSuite table children =
          some (children.filterMap (fun i =>
            match tableGet table i with
            | some (.suite _ _) => none
            | some n => some n
            | none => none)) ∧
        childrenOfGroup table children =
          some (children.filterMap (fun i =>
            match tableGet table i with
            | some (.suite _ _) => none
            | some n => some n
            | none => none))) ∧
    ((∃ i ∈ children, tableGet table i = none) →
        childrenOfSuite table children = none ∧
        childrenOfGroup table children = none) := by
  constructor
  · intro h
    exact ⟨filterNotSuite_of_resolving table children h,
           filterNotSuite_of_resolving table children h⟩
  · rintro ⟨i, hi, hnone⟩
    have hmem : (none : Option Node) ∈ children.map (tableGet table) := by
      rw [← hnone]
      exact List.mem_map_of_mem (tableGet table) hi
    exact ⟨filterNotSuite_of_dangling _ hmem, filterNotSuite_of_dangling _ hmem⟩

/-- C6 witness: in the scenario table the suite's children all resolve and
the query returns them (the root group), suites excluded. -/
theorem c6_children_query_witness :
    childrenOfSuite scenarioTable [2] =
      some ([2].filterMap (fun i =>
        match tableGet scenarioTable i with
        | some (.suite _ _) => none
        | some n => some n
        | none => none)) :=
  ((c6_children_query scenarioTable [2]).1 (by decide)).1

/-- C3 counterexample: in the completed table with one group named `A` and
a test whose display name `X Y` does not begin with the group's name, the
segmented-name query returns segments whose rejoining (`A Y`) is not the
original test name, refuting the universal round-trip. -/
theorem c3_counterexample :
    getSegmentedName c3cTable c3cTest = some [['A'], ['Y']] ∧
    (getSegmentedName c3cTable c3cTest).map joinSegmentsSpec ≠
      some c3cTest.test.name := by
  decide

/-- C3 (amended): the segmented-name round-trip holds for tests that follow
the producer's naming convention, proved for the two-level shape of the
spec's scenario: an anonymous root group, one named child group whose name
(plus a space) opens the test's display name and does not also close it.
The query then returns the empty root segment, the group's name and the
remainder, and rejoining with the space convention restores the name. -/
theorem c3_segmented_name_roundtrip (table : Table) (node : TestStartEvent)
    (g0 g1 : GroupEvent × List Nat) (R : JStr)
    (hpar : parentsOfTest table node = some [g0, g1])
    (h0 : g0.1.group.name = [])
    (h1 : g1.1.group.name ≠ [])
    (hname : node.test.name = g1.1.group.name ++ ' ' :: R)
    (hsuf : (g1.1.group.name ++ [' ']).isSuffixOf node.test.name = false) :
    getSegmentedName table node = some [[], g1.1.group.name, R] ∧
    joinSegmentsSpec [[], g1.1.group.name, R] = node.test.name := by
  have hname' : node.test.name = (g1.1.group.name ++ [' ']) ++ R := by
    rw [hname]
    simp
  constructor
  · simp only [getSegmentedName, hpar]
    have hseg : segmentLoop [] [g0, g1] = [[], g1.1.group.name] := by
      simp [segmentLoop, h0, h1]
    rw [hseg]
    have hlast : [g0, g1].getLast? = some g1 := rfl
    simp only [hlast, hsuf]
    rw [if_neg h1]
    simp only [Bool.false_eq_true, if_false, hname', List.drop_left]
    rfl
  · simp [joinSegmentsSpec, h1, hname]

/-- C3 witness: the spec's scenario, where the query returns
`["", "Intentionally failing tests", "Simple assertion failure"]` and the
space-convention rejoin restores the original display name. -/
theorem c3_segmented_name_roundtrip_witness :
    getSegmentedName scenarioTable testEventSAF =
      some [[], "Intentionally failing tests".toList,
        "Simple assertion failure".toList] ∧
    joinSegmentsSpec [[], "Intentionally failing tests".toList,
        "Simple assertion failure".toList] = testEventSAF.test.name :=
  c3_segmented_name_roundtrip scenarioTable testEventSAF
    (groupEventRoot, [3]) (groupEventIFT, [4]) "Simple assertion failure".toList
    (by decide) rfl (by decide) (by decide) (by decide)

/-- Splitting never yields an empty list of lines. -/
theorem splitOnNewline_ne_nil (s : JStr) : splitOnNewline s ≠ [] := by
  cases s with
  | nil => simp [splitOnNewline]
  | cons c rest =>
      by_cases h : c = '\n'
      · simp [splitOnNewline, h]
      · simp only [splitOnNewline, if_neg h]
        rcases hs : splitOnNewline rest with _ | ⟨l, ls⟩ <;> simp

/-- A string ending in a newline splits into the split of its front part
followed by one final empty line, exactly as JavaScript `split` does. -/
theorem splitOnNewline_append_newline (s : JStr) :
    splitOnNewline (s ++ ['\n']) = splitOnNewline s ++ [[]] := by
  induction s with
  | nil => rfl
  | cons c rest ih =>
      by_cases h : c = '\n'
      · simp [splitOnNewline, h, ih]
      · simp only [List.cons_append, splitOnNewline, if_neg h]
        rcases hs : splitOnNewline rest with _ | ⟨l, ls⟩
        · exact absurd hs (splitOnNewline_ne_nil rest)
        · simp only [List.append_eq]
          rw [ih, hs]
          simp

/-- If any line of the input fails to decode, the whole parse loop fails,
whatever the accumulated table and duration are. -/
theorem parseLoop_none_of_mem (dec : JStr → Option Event) (lines : List JStr)
    (bad : JStr) (hmem : bad ∈ lines) (hdec : dec bad = none) :
    ∀ trees dur, parseLoop dec lines trees dur = none := by
  induction lines with
  | nil => cases hmem
  | cons l rest ih =>
      intro trees dur
      rcases List.mem_cons.mp hmem with h1 | h2
      · subst h1
        simp [parseLoop, hdec]
      · cases hd : dec l with
        | none => simp [parseLoop, hd]
        | some ev => simpa [parseLoop, hd] using ih h2 _ _

/-- C9: for every decoder that rejects the empty line (as `JSON.parse`
rejects the empty string) and every input string ending in a newline,
`parseSync` fails: the split produces a final empty line whose decoding
throws, so otherwise valid records followed by a trailing newline are
rejected rather than parsed. -/
theorem c9_trailing_newline (dec : JStr → Option Event) (s : JStr)
    (hdec : dec [] = none) :
    parseSync dec (s ++ ['\n']) = none := by
  unfold parseSync
  rw [splitOnNewline_append_newline]
  exact parseLoop_none_of_mem dec _ [] (by simp) hdec [] (-1)

/-- C9 witness: the single record line `x` followed by a trailing newline
is rejected by `parseSync` under the sample decoder. -/
theorem c9_trailing_newline_witness :
    parseSync lineDecSample ['x', '\n'] = none :=
  c9_trailing_newline lineDecSample ['x'] rfl

/-- A parse loop over lines that all decode to non-`done` events leaves the
duration accumulator untouched. -/
theorem parseLoop_no_done (dec : JStr → Option Event) (lines : List JStr)
    (h : ∀ l ∈ lines, ∃ ev, dec l = some ev ∧ ev.isDone = false) :
    ∀ trees dur, (parseLoop dec lines trees dur).map
      FlutterTestOutput.totalDurationInSeconds = some dur := by
  induction lines with
  | nil =>
      intro trees dur
      rfl
  | cons l rest ih =>
      intro trees dur
      obtain ⟨ev, hdec, hnd⟩ := h l (by simp)
      have ihrest := ih (fun j hj => h j (by simp [hj]))
      cases ev <;> simp_all [parseLoop, Event.isDone]

/-- C10: for every line sequence whose lines all decode and contain no
`done` event, `parseSync` (lines form) and `parseAsync` both succeed with
`totalDurationInSeconds` equal to the sentinel `-1`. -/
theorem c10_no_done_sentinel (dec : JStr → Option Event) (lines : List JStr)
    (h : ∀ l ∈ lines, ∃ ev, dec l = some ev ∧ ev.isDone = false) :
    (parseSyncOfLines dec lines).map FlutterTestOutput.totalDurationInSeconds =
      some (-1) ∧
    (parseAsync dec lines).map FlutterTestOutput.totalDurationInSeconds =
      some (-1) :=
  ⟨parseLoop_no_done dec lines h [] (-1), parseLoop_no_done dec lines h [] (-1)⟩

/-- C10 witness: a one-line input decoding to an `allSuites` event parses
successfully with the `-1` sentinel duration, synchronously and
asynchronously. -/
theorem c10_no_done_sentinel_witness :
    (parseSyncOfLines lineDecSample [['a']]).map
      FlutterTestOutput.totalDurationInSeconds = some (-1) ∧
    (parseAsync lineDecSample [['a']]).map
      FlutterTestOutput.totalDurationInSeconds = some (-1) :=
  c10_no_done_sentinel lineDecSample [['a']]
    (by
      intro l hl
      simp only [List.mem_singleton] at hl
      subst hl
      exact ⟨.allSuites {count := 1}, rfl, rfl⟩)
